import Mathlib

/-!
Verification development for the backup-restore tool (src/src/index.js).

The embedding models JSON-shaped JavaScript values as the inductive type
`Value`, the normalizer `convertTypes` as a function that returns both the
produced value and the state of its argument after the call (the source
mutates elements of `payments` and `purchasedProducts` arrays in place),
and the restore loop of `restoreBackup` as a fold over the parsed backup
that produces the log-event trace and the list of bulk-insert calls.

JavaScript platform primitives are embedded as follows:
- `Date.parse` is an abstract parameter `isDate : String → Bool`
  (the source only observes `!isNaN(Date.parse value)`); theorems
  quantify over it, concrete counterexamples instantiate it with a
  recognizer that agrees with ECMAScript `Date.parse` on the strings used.
- `new Date s` is `Value.vDate s` (it never throws; an unparseable string
  yields an Invalid Date object, still a Date).
- `ObjectId.isValid` on a string is `isValidObjectIdStr` (24 hex chars),
  and `new ObjectId s` is `newObjectId`, which throws on invalid input.
- Thrown exceptions are `Except.error`; `Except.ok` is normal return.
-/

namespace BackupRestore

/-- A JSON-shaped JavaScript runtime value.  `vObj` keeps fields as an
ordered association list, matching the enumeration order of a JS object.
`vDate` and `vObjectId` are the typed values produced by conversion; they
carry the source string they were built from. -/
inductive Value where
  | vStr (s : String)
  | vNum (n : Int)
  | vBool (b : Bool)
  | vNull
  | vArr (elems : List Value)
  | vObj (fields : List (String × Value))
  | vDate (src : String)
  | vObjectId (hex : String)

/-- A thrown JavaScript error: the BSONError from the ObjectId constructor,
a TypeError (calling `.map` on a non-array, reading a property of null),
or a backend insert error. -/
inductive JsErr where
  | invalidObjectId (s : String)
  | typeError
  | insertError (msg : String)
deriving DecidableEq

def isHexDigit (c : Char) : Bool :=
  c.isDigit || (('a' ≤ c) && (c ≤ 'f')) || (('A' ≤ c) && (c ≤ 'F'))

/-- `ObjectId.isValid` on a string: exactly 24 hexadecimal characters. -/
def isValidObjectIdStr (s : String) : Bool :=
  (s.length == 24) && s.toList.all isHexDigit

/-- `new ObjectId s`: returns the ObjectId, or throws when the string is
not a valid 24-hex identifier. -/
def newObjectId (s : String) : Except JsErr Value :=
  if isValidObjectIdStr s then .ok (.vObjectId s) else .error (.invalidObjectId s)

/-- JS property read `obj[key]` on an association list (keys are unique in
a JS object, so first match suffices). -/
def lookupField : List (String × Value) → String → Option Value
  | [], _ => none
  | (k, v) :: rest, key => if k = key then some v else lookupField rest key

/-- JS property write `obj[key] = w` when the key is already present:
the value is replaced, the position of the key is unchanged. -/
def setField : List (String × Value) → String → Value → List (String × Value)
  | [], _, _ => []
  | (k, v) :: rest, key, w =>
    if k = key then (k, w) :: rest else (k, v) :: setField rest key w

/-- Step 1 of the `payments` callback (src/src/index.js:87-89):
`if (payment._id && typeof payment._id === 'string') payment._id = new ObjectId(payment._id)`.
The truthiness guard means an empty string is skipped; a present, truthy
string is converted unconditionally, so an invalid identifier throws. -/
def convertPaymentId (fs : List (String × Value)) : Except JsErr (List (String × Value)) :=
  match lookupField fs "_id" with
  | some (.vStr s) =>
    if s = "" then .ok fs
    else
      match newObjectId s with
      | .error e => .error e
      | .ok o => .ok (setField fs "_id" o)
  | _ => .ok fs

/-- Step 2 of the `payments` callback (src/src/index.js:90-92):
`if (payment.date && typeof payment.date === 'string') payment.date = new Date(payment.date)`.
`new Date` never throws; an unparseable string yields an Invalid Date. -/
def convertPaymentDate (fs : List (String × Value)) : List (String × Value) :=
  match lookupField fs "date" with
  | some (.vStr d) => if d = "" then fs else setField fs "date" (.vDate d)
  | _ => fs

/-- The callback mapped over a `payments` array (src/src/index.js:85-94).
It mutates the element in place: a truthy string `_id` becomes an ObjectId
(which may throw), then a truthy string `date` becomes a Date.  Property
reads on null throw; on any other non-object value they yield undefined,
which is falsy, so the element passes through unchanged. -/
def convertPayment : Value → Except JsErr Value
  | .vObj fs =>
    match convertPaymentId fs with
    | .error e => .error e
    | .ok fs1 => .ok (.vObj (convertPaymentDate fs1))
  | .vNull => .error .typeError
  | v => .ok v

/-- `value.map convertPayment` over the elements of a `payments` array;
the first thrown error propagates. -/
def convertPayments : List Value → Except JsErr (List Value)
  | [] => .ok []
  | p :: ps =>
    match convertPayment p with
    | .error e => .error e
    | .ok q =>
      match convertPayments ps with
      | .error e => .error e
      | .ok qs => .ok (q :: qs)

/-- Step 2 of the `purchasedProducts` callback (src/src/index.js:103-110):
a truthy string `productId` is converted with `new ObjectId` with no
validity pre-check, so an invalid identifier throws. -/
def convertPurchasedPid (fs : List (String × Value)) : Except JsErr (List (String × Value)) :=
  match lookupField fs "productId" with
  | some (.vStr s) =>
    if s = "" then .ok fs
    else
      match newObjectId s with
      | .error e => .error e
      | .ok o => .ok (setField fs "productId" o)
  | _ => .ok fs

/-- The callback mapped over a `purchasedProducts` array
(src/src/index.js:96-112).  Mutates in place: truthy string `_id` and
truthy string `productId` are both converted with `new ObjectId`, with no
validity pre-check on either, so either conversion may throw.  The `_id`
step reuses `convertPaymentId`, which is the same guarded assignment. -/
def convertPurchased : Value → Except JsErr Value
  | .vObj fs =>
    match convertPaymentId fs with
    | .error e => .error e
    | .ok fs1 =>
      match convertPurchasedPid fs1 with
      | .error e => .error e
      | .ok fs2 => .ok (.vObj fs2)
  | .vNull => .error .typeError
  | v => .ok v

/-- `value.map convertPurchased` over a `purchasedProducts` array. -/
def convertPurchasedList : List Value → Except JsErr (List Value)
  | [] => .ok []
  | p :: ps =>
    match convertPurchased p with
    | .error e => .error e
    | .ok q =>
      match convertPurchasedList ps with
      | .error e => .error e
      | .ok qs => .ok (q :: qs)

/-- The element transform of the generic-array branch
(src/src/index.js:115-119): a string element that passes
`ObjectId.isValid` becomes an ObjectId; every other element is returned
unchanged (no recursion, no throwing). -/
def oidMapItem : Value → Value
  | .vStr s => if isValidObjectIdStr s then .vObjectId s else .vStr s
  | v => v

mutual

/-- `convertTypes` (src/src/index.js:58-130), parameterized by the
`Date.parse` success predicate `isDate`.  Returns the pair
(returned value, state of the argument after the call); the two differ
exactly where the source mutates its argument in place (the elements of
`payments` and `purchasedProducts` arrays).  Arrays map `convertTypes`
over their elements (line 60).  Objects are rebuilt key by key in
enumeration order via `convertFields` (lines 63-126).  A Date or
ObjectId value reaching `convertTypes` directly satisfies the
`typeof data === 'object' && data !== null` test but has no own
enumerable properties, so the `for key in data` loop rebuilds it as the
empty object.  Scalars and null are returned unchanged (line 129). -/
def convertTypes (isDate : String → Bool) : Value → Except JsErr (Value × Value)
  | .vArr xs =>
    match convertList isDate xs with
    | .error e => .error e
    | .ok ps => .ok (.vArr (ps.map Prod.fst), .vArr (ps.map Prod.snd))
  | .vObj fs =>
    match convertFields isDate fs with
    | .error e => .error e
    | .ok (rs, fs1) => .ok (.vObj rs, .vObj fs1)
  | .vDate s => .ok (.vObj [], .vDate s)
  | .vObjectId s => .ok (.vObj [], .vObjectId s)
  | .vStr s => .ok (.vStr s, .vStr s)
  | .vNum n => .ok (.vNum n, .vNum n)
  | .vBool b => .ok (.vBool b, .vBool b)
  | .vNull => .ok (.vNull, .vNull)
termination_by v => (sizeOf v, 0)

/-- `data.map(convertTypes)` over the elements of an array (line 60);
the first thrown error propagates. -/
def convertList (isDate : String → Bool) : List Value → Except JsErr (List (Value × Value))
  | [] => .ok []
  | v :: vs =>
    match convertTypes isDate v with
    | .error e => .error e
    | .ok p =>
      match convertList isDate vs with
      | .error e => .error e
      | .ok ps => .ok (p :: ps)
termination_by vs => (sizeOf vs, 0)

/-- The `for (let key in data)` loop (lines 65-125): each field is
processed by `convertField` in order; the results are assembled into the
new object `convertedData`, and the post-call states of the field values
into the post-call state of the argument. -/
def convertFields (isDate : String → Bool) :
    List (String × Value) → Except JsErr (List (String × Value) × List (String × Value))
  | [] => .ok ([], [])
  | (k, v) :: rest =>
    match convertField isDate k v with
    | .error e => .error e
    | .ok (r, v1) =>
      match convertFields isDate rest with
      | .error e => .error e
      | .ok (rs, vs1) => .ok ((k, r) :: rs, (k, v1) :: vs1)
termination_by fs => (sizeOf fs, 0)

/-- The if/else chain of the loop body (lines 69-123), in source order:
1. `key === 'name'`: copy unchanged (lines 69-72);
2. string value passing `!isNaN(Date.parse(value))` (with `key !== 'name'`
   already known): `new Date(value)` (lines 74-79);
3. `key === '_id'` with string value: `new ObjectId(value)`, which may
   throw (lines 80-82);
4. `key === 'payments'`: `value.map(...)` with the in-place payment
   callback; calling `.map` on a non-array throws a TypeError
   (lines 83-94);
5. `key === 'purchasedProducts'`: likewise (lines 95-112);
6. `Array.isArray(value)`: map `oidMapItem`, building a new array and
   leaving the argument untouched (lines 113-119);
7. otherwise: recurse with `convertTypes` (lines 120-123). -/
def convertField (isDate : String → Bool) (k : String) (v : Value) :
    Except JsErr (Value × Value) :=
  if k = "name" then .ok (v, v)
  else
    match v with
    | .vStr s =>
      if isDate s then .ok (.vDate s, .vStr s)
      else if k = "_id" then
        match newObjectId s with
        | .error e => .error e
        | .ok o => .ok (o, .vStr s)
      -- a string has no .map, so the payments and purchasedProducts
      -- branches throw a TypeError on a string value
      else if k = "payments" then .error .typeError
      else if k = "purchasedProducts" then .error .typeError
      else convertTypes isDate (.vStr s)
    | .vArr xs =>
      if k = "payments" then
        match convertPayments xs with
        | .error e => .error e
        | .ok ms => .ok (.vArr ms, .vArr ms)
      else if k = "purchasedProducts" then
        match convertPurchasedList xs with
        | .error e => .error e
        | .ok ms => .ok (.vArr ms, .vArr ms)
      else .ok (.vArr (xs.map oidMapItem), .vArr xs)
    | .vObj fs =>
      if k = "payments" then .error .typeError
      else if k = "purchasedProducts" then .error .typeError
      else convertTypes isDate (.vObj fs)
    | .vNum n =>
      if k = "payments" then .error .typeError
      else if k = "purchasedProducts" then .error .typeError
      else convertTypes isDate (.vNum n)
    | .vBool b =>
      if k = "payments" then .error .typeError
      else if k = "purchasedProducts" then .error .typeError
      else convertTypes isDate (.vBool b)
    | .vNull =>
      if k = "payments" then .error .typeError
      else if k = "purchasedProducts" then .error .typeError
      else convertTypes isDate .vNull
    | .vDate s =>
      if k = "payments" then .error .typeError
      else if k = "purchasedProducts" then .error .typeError
      else convertTypes isDate (.vDate s)
    | .vObjectId s =>
      if k = "payments" then .error .typeError
      else if k = "purchasedProducts" then .error .typeError
      else convertTypes isDate (.vObjectId s)
termination_by (sizeOf v, 1)

end

/-- `collectionData.map((item) => convertTypes(item))`
(src/src/index.js:164): normalize every document of a collection,
keeping the returned values; the first thrown error propagates. -/
def convertDocs (isDate : String → Bool) : List Value → Except JsErr (List Value)
  | [] => .ok []
  | d :: ds =>
    match convertTypes isDate d with
    | .error e => .error e
    | .ok (r, _) =>
      match convertDocs isDate ds with
      | .error e => .error e
      | .ok rs => .ok (r :: rs)

/-- One console line emitted by `restoreBackup`, restricted to the
collection loop and its surrounding try/catch/finally. -/
inductive Event where
  | warnEmpty (c : String)
  | infoRestoring (c : String) (n : Nat)
  | successCollection (c : String) (n : Nat)
  | successAll
  | errorDuring
  | closed

/-- The observable outcome of the collection loop: the console events it
emitted, the bulk-insert calls it issued (collection name and submitted
batch, in order), and whether it was aborted by a thrown error. -/
structure RunResult where
  events : List Event
  calls : List (String × List Value)
  aborted : Bool

/-- The `for (const collectionName in backupData)` loop of
`restoreBackup` (src/src/index.js:149-171), parameterized by the
backend bulk-insert `ins` (the `collection.insertMany` call).  An empty
collection logs a warning and is skipped (lines 151-156).  Otherwise a
restoring line is logged (lines 158-160), the documents are normalized
(line 164, which can throw a conversion error before any insert call),
and the batch is submitted; a thrown conversion or insert error leaves
the loop at once, because the single try/catch wrapping the whole loop
(lines 138-175) is outside it, so later collections are not processed. -/
def restoreLoop (isDate : String → Bool) (ins : String → List Value → Except JsErr Unit) :
    List (String × List Value) → RunResult
  | [] => ⟨[], [], false⟩
  | (c, docs) :: rest =>
    if docs.length = 0 then
      let r := restoreLoop isDate ins rest
      ⟨.warnEmpty c :: r.events, r.calls, r.aborted⟩
    else
      match convertDocs isDate docs with
      | .error _ => ⟨[.infoRestoring c docs.length], [], true⟩
      | .ok conv =>
        match ins c conv with
        | .error _ => ⟨[.infoRestoring c docs.length], [(c, conv)], true⟩
        | .ok _ =>
          let r := restoreLoop isDate ins rest
          ⟨.infoRestoring c docs.length :: .successCollection c conv.length :: r.events,
           (c, conv) :: r.calls, r.aborted⟩

/-- `restoreBackup` after connecting and parsing the file
(src/src/index.js:138-180): run the collection loop; on normal completion
log the overall success line, on a thrown error the catch logs a single
error line; the finally closes the connection in every case. -/
def restoreBackup (isDate : String → Bool) (ins : String → List Value → Except JsErr Unit)
    (backup : List (String × List Value)) : RunResult :=
  let r := restoreLoop isDate ins backup
  ⟨r.events ++ (if r.aborted then [Event.errorDuring] else [Event.successAll]) ++ [Event.closed],
   r.calls, r.aborted⟩

/-- Discriminator: is this value of the identifier type? -/
def isObjectIdVal : Value → Bool
  | .vObjectId _ => true
  | _ => false

/-- Discriminator: is this value of the timestamp type? -/
def isDateVal : Value → Bool
  | .vDate _ => true
  | _ => false

mutual

/-- `true` when no object reachable anywhere inside the value has a key
named `payments` or `purchasedProducts`; on such values the in-place
mutation branches of `convertTypes` can never run. -/
def noSpecialKeys : Value → Bool
  | .vArr xs => noSpecialKeysList xs
  | .vObj fs => noSpecialKeysFields fs
  | _ => true

/-- List form of `noSpecialKeys`. -/
def noSpecialKeysList : List Value → Bool
  | [] => true
  | v :: vs => noSpecialKeys v && noSpecialKeysList vs

/-- Field-list form of `noSpecialKeys`. -/
def noSpecialKeysFields : List (String × Value) → Bool
  | [] => true
  | (k, v) :: rest =>
    !(k == "payments") && !(k == "purchasedProducts") && noSpecialKeys v && noSpecialKeysFields rest

end

section Lemmas

lemma setField_map_fst (fs : List (String × Value)) (k : String) (w : Value) :
    (setField fs k w).map Prod.fst = fs.map Prod.fst := by
  induction fs with
  | nil => simp [setField]
  | cons kv rest ih =>
    obtain ⟨k1, v1⟩ := kv
    by_cases h : k1 = k <;> simp [setField, h, ih]

lemma lookupField_setField_self (fs : List (String × Value)) (k : String) (w v : Value)
    (h : lookupField fs k = some v) : lookupField (setField fs k w) k = some w := by
  induction fs with
  | nil => simp [lookupField] at h
  | cons kv rest ih =>
    obtain ⟨k1, v1⟩ := kv
    by_cases hk : k1 = k
    · simp [setField, lookupField, hk]
    · simp [setField, lookupField, hk] at h ⊢
      exact ih h

lemma lookupField_setField_other (fs : List (String × Value)) (k key : String) (w : Value)
    (h : key ≠ k) : lookupField (setField fs k w) key = lookupField fs key := by
  induction fs with
  | nil => simp [setField]
  | cons kv rest ih =>
    obtain ⟨k1, v1⟩ := kv
    by_cases hk : k1 = k
    · subst hk
      simp [setField, lookupField, Ne.symm h]
    · simp [setField, lookupField, hk]
      split <;> simp_all

/-- Appending field lists distributes over the field loop. -/
lemma convertFields_append (isDate : String → Bool) (xs ys : List (String × Value)) :
    convertFields isDate (xs ++ ys) =
      match convertFields isDate xs, convertFields isDate ys with
      | .error e, _ => .error e
      | .ok _, .error e => .error e
      | .ok (rs, as1), .ok (ss, bs1) => .ok (rs ++ ss, as1 ++ bs1) := by
  induction xs with
  | nil =>
    simp only [List.nil_append, convertFields]
    cases convertFields isDate ys with
    | error e => rfl
    | ok p => obtain ⟨ss, bs1⟩ := p; rfl
  | cons kv rest ih =>
    obtain ⟨k, v⟩ := kv
    simp only [List.cons_append, convertFields, ih]
    cases convertField isDate k v with
    | error e => rfl
    | ok p =>
      obtain ⟨r, v1⟩ := p
      cases convertFields isDate rest with
      | error e => rfl
      | ok q =>
        obtain ⟨rs, vs1⟩ := q
        cases convertFields isDate ys with
        | error e => rfl
        | ok w => obtain ⟨ss, bs1⟩ := w; rfl

/-- Success of `convertTypes` on an object decomposes at any field
position into success of the loop body on that field and success of the
loop on the remaining fields. -/
lemma convertTypes_obj_at {isDate : String → Bool} {pre post : List (String × Value)}
    {k : String} {v : Value} {r a : Value}
    (h : convertTypes isDate (.vObj (pre ++ (k, v) :: post)) = .ok (r, a)) :
    ∃ rs1 as1 q rs2 as2,
      convertFields isDate pre = .ok (rs1, as1) ∧
      convertField isDate k v = .ok q ∧
      convertFields isDate post = .ok (rs2, as2) ∧
      r = .vObj (rs1 ++ (k, q.1) :: rs2) ∧ a = .vObj (as1 ++ (k, q.2) :: as2) := by
  rw [convertTypes, convertFields_append] at h
  cases h1 : convertFields isDate pre with
  | error e => rw [h1] at h; simp at h
  | ok p1 =>
    obtain ⟨rs1, as1⟩ := p1
    rw [h1, convertFields] at h
    cases h2 : convertField isDate k v with
    | error e => rw [h2] at h; simp at h
    | ok q =>
      obtain ⟨qr, qa⟩ := q
      rw [h2] at h
      cases h3 : convertFields isDate post with
      | error e => rw [h3] at h; simp at h
      | ok p2 =>
        obtain ⟨rs2, as2⟩ := p2
        rw [h3] at h
        simp only [Except.ok.injEq, Prod.mk.injEq] at h
        obtain ⟨hr, ha⟩ := h
        exact ⟨rs1, as1, (qr, qa), rs2, as2, rfl, rfl, rfl, hr.symm, ha.symm⟩

/-- Success of `convertTypes` at a `payments` field: the field holds an
array, its elements go through the payment callback, and both the result
and the post-call argument hold the same converted elements. -/
lemma convertTypes_payments_at {isDate : String → Bool} {pre post : List (String × Value)}
    {xs : List Value} {r a : Value}
    (h : convertTypes isDate (.vObj (pre ++ ("payments", .vArr xs) :: post)) = .ok (r, a)) :
    ∃ ms rs1 rs2 as1 as2, convertPayments xs = .ok ms ∧
      r = .vObj (rs1 ++ ("payments", .vArr ms) :: rs2) ∧
      a = .vObj (as1 ++ ("payments", .vArr ms) :: as2) := by
  obtain ⟨rs1, as1, q, rs2, as2, h1, h2, h3, hr, ha⟩ := convertTypes_obj_at h
  rw [convertField] at h2
  simp only [String.reduceEq, reduceIte] at h2
  cases hcp : convertPayments xs with
  | error e => rw [hcp] at h2; cases h2
  | ok ms =>
    rw [hcp] at h2
    simp only [Except.ok.injEq] at h2
    exact ⟨ms, rs1, rs2, as1, as2, rfl, by rw [hr, ← h2], by rw [ha, ← h2]⟩

/-- Case split for the `_id` step of the payment callback: either the
element has no truthy string `_id` and the fields pass through, or it has
one and the step is the guarded ObjectId assignment. -/
lemma convertPaymentId_cases (fs : List (String × Value)) :
    (convertPaymentId fs = .ok fs ∧ (∀ s, lookupField fs "_id" = some (.vStr s) → s = ""))
  ∨ (∃ s, lookupField fs "_id" = some (.vStr s) ∧ s ≠ "" ∧
      convertPaymentId fs = (newObjectId s).map (fun o => setField fs "_id" o)) := by
  rw [convertPaymentId]
  cases hid : lookupField fs "_id" with
  | none => exact Or.inl ⟨rfl, fun t ht => by simp at ht⟩
  | some v =>
    cases v with
    | vStr s =>
      by_cases hs : s = ""
      · subst hs
        exact Or.inl ⟨by simp, fun t ht => by simpa using ht.symm⟩
      · refine Or.inr ⟨s, rfl, hs, ?_⟩
        cases hnew : newObjectId s with
        | error e => simp [hs, hnew, Except.map]
        | ok o => simp [hs, hnew, Except.map]
    | vNum n => exact Or.inl ⟨rfl, fun t ht => by simp at ht⟩
    | vBool b => exact Or.inl ⟨rfl, fun t ht => by simp at ht⟩
    | vNull => exact Or.inl ⟨rfl, fun t ht => by simp at ht⟩
    | vArr xs => exact Or.inl ⟨rfl, fun t ht => by simp at ht⟩
    | vObj gs => exact Or.inl ⟨rfl, fun t ht => by simp at ht⟩
    | vDate d => exact Or.inl ⟨rfl, fun t ht => by simp at ht⟩
    | vObjectId o => exact Or.inl ⟨rfl, fun t ht => by simp at ht⟩

/-- Case split for the `date` step of the payment callback. -/
lemma convertPaymentDate_cases (fs : List (String × Value)) :
    (convertPaymentDate fs = fs ∧ (∀ d, lookupField fs "date" = some (.vStr d) → d = ""))
  ∨ (∃ d, lookupField fs "date" = some (.vStr d) ∧ d ≠ "" ∧
      convertPaymentDate fs = setField fs "date" (.vDate d)) := by
  rw [convertPaymentDate]
  cases hdt : lookupField fs "date" with
  | none => exact Or.inl ⟨rfl, fun t ht => by simp at ht⟩
  | some v =>
    cases v with
    | vStr d =>
      by_cases hd : d = ""
      · subst hd
        exact Or.inl ⟨by simp, fun t ht => by simpa using ht.symm⟩
      · exact Or.inr ⟨d, rfl, hd, by simp [hd]⟩
    | vNum n => exact Or.inl ⟨rfl, fun t ht => by simp at ht⟩
    | vBool b => exact Or.inl ⟨rfl, fun t ht => by simp at ht⟩
    | vNull => exact Or.inl ⟨rfl, fun t ht => by simp at ht⟩
    | vArr xs => exact Or.inl ⟨rfl, fun t ht => by simp at ht⟩
    | vObj gs => exact Or.inl ⟨rfl, fun t ht => by simp at ht⟩
    | vDate d2 => exact Or.inl ⟨rfl, fun t ht => by simp at ht⟩
    | vObjectId o => exact Or.inl ⟨rfl, fun t ht => by simp at ht⟩

/-- If the loop body throws on some field, the whole object conversion
throws (with that error or an earlier one). -/
lemma convertTypes_obj_at_error {isDate : String → Bool} {pre post : List (String × Value)}
    {k : String} {v : Value} {e : JsErr}
    (h : convertField isDate k v = .error e) :
    ∃ e2, convertTypes isDate (.vObj (pre ++ (k, v) :: post)) = .error e2 := by
  rw [convertTypes, convertFields_append]
  cases h1 : convertFields isDate pre with
  | error e1 => exact ⟨e1, rfl⟩
  | ok p1 =>
    obtain ⟨rs1, as1⟩ := p1
    rw [convertFields, h]
    exact ⟨e, rfl⟩

/-- Joint induction: on values free of `payments` and `purchasedProducts`
keys, the post-call state returned by the conversion functions is the
original argument (no observable mutation). -/
lemma noMutation_all (isDate : String → Bool) :
    (∀ v, ∀ r a, noSpecialKeys v = true → convertTypes isDate v = .ok (r, a) → a = v) ∧
    (∀ fs, ∀ rs as1, noSpecialKeysFields fs = true →
        convertFields isDate fs = .ok (rs, as1) → as1 = fs) ∧
    (∀ k v, ∀ r a, k ≠ "payments" → k ≠ "purchasedProducts" → noSpecialKeys v = true →
        convertField isDate k v = .ok (r, a) → a = v) ∧
    (∀ xs, ∀ ps, noSpecialKeysList xs = true →
        convertList isDate xs = .ok ps → ps.map Prod.snd = xs) := by
  apply convertTypes.mutual_induct isDate
    (fun v => ∀ r a, noSpecialKeys v = true → convertTypes isDate v = .ok (r, a) → a = v)
    (fun fs => ∀ rs as1, noSpecialKeysFields fs = true →
        convertFields isDate fs = .ok (rs, as1) → as1 = fs)
    (fun k v => ∀ r a, k ≠ "payments" → k ≠ "purchasedProducts" → noSpecialKeys v = true →
        convertField isDate k v = .ok (r, a) → a = v)
    (fun xs => ∀ ps, noSpecialKeysList xs = true →
        convertList isDate xs = .ok ps → ps.map Prod.snd = xs)
  case case48 =>
    intro p ps pr hct ps1 hcl ih1 ih4 ps2 hn hc
    obtain ⟨r1, a1⟩ := pr
    rw [convertList, hct, hcl] at hc
    simp only [Except.ok.injEq] at hc
    subst hc
    rw [noSpecialKeysList] at hn
    simp only [Bool.and_eq_true] at hn
    have h1 : a1 = p := ih1 r1 a1 hn.1 hct
    simp [List.map, h1, ih4 ps1 hn.2 hcl]
  all_goals intros
  all_goals simp_all [convertTypes, convertField, convertFields, convertList,
    noSpecialKeys, noSpecialKeysList, noSpecialKeysFields]
  all_goals try (rename_i hh; exact hh.2.symm.trans hh.1)
  all_goals try simp_all [convertField.eq_def]
  all_goals try (rename_i hh; exact hh.2.symm.trans hh.1)

end Lemmas

/-- C3 counterexample: normalizing a document whose `payments` array holds
an element with a string `_id` mutates the argument in place: after the
call the post-call state of the input holds an ObjectId where the input
held a string, so the input is not unchanged. -/
theorem c3_counterexample :
    convertTypes (fun _ => false)
      (.vObj [("payments", .vArr [.vObj [("_id", .vStr "507f1f77bcf86cd799439011")]])]) =
      .ok (.vObj [("payments", .vArr [.vObj [("_id", .vObjectId "507f1f77bcf86cd799439011")]])],
           .vObj [("payments", .vArr [.vObj [("_id", .vObjectId "507f1f77bcf86cd799439011")]])]) ∧
    Value.vObj [("payments", .vArr [.vObj [("_id", .vObjectId "507f1f77bcf86cd799439011")]])] ≠
      Value.vObj [("payments", .vArr [.vObj [("_id", .vStr "507f1f77bcf86cd799439011")]])] := by
  have h : isValidObjectIdStr "507f1f77bcf86cd799439011" = true := by decide
  constructor
  · simp [convertTypes, convertFields, convertField, convertPayments, convertPayment,
      convertPaymentId, convertPaymentDate, lookupField, setField, newObjectId, h]
  · simp

/-- C3 amended: normalize never mutates an argument that contains no
`payments` or `purchasedProducts` key anywhere (the result is newly
built), but the elements of a `payments` array are mutated in place: the
post-call state of the argument holds the converted elements, the same
objects placed in the result. -/
theorem c3_no_mutation_outside_special_arrays (isDate : String → Bool) :
    (∀ v r a, noSpecialKeys v = true → convertTypes isDate v = .ok (r, a) → a = v) ∧
    (∀ pre post xs r a,
      convertTypes isDate (.vObj (pre ++ ("payments", .vArr xs) :: post)) = .ok (r, a) →
      ∃ ms rs1 rs2 as1 as2, convertPayments xs = .ok ms ∧
        r = .vObj (rs1 ++ ("payments", .vArr ms) :: rs2) ∧
        a = .vObj (as1 ++ ("payments", .vArr ms) :: as2)) := by
  constructor
  · exact (noMutation_all isDate).1
  · intro pre post xs r a h
    exact convertTypes_payments_at h

/-- C3 witness: the no-mutation part of the amended claim applied to a
concrete one-field document. -/
theorem c3_witness :
    noSpecialKeys (Value.vObj [("x", Value.vStr "ab")]) = true ∧
    Value.vObj [("x", Value.vStr "ab")] = Value.vObj [("x", Value.vStr "ab")] := by
  have hn : noSpecialKeys (Value.vObj [("x", Value.vStr "ab")]) = true := by
    simp [noSpecialKeys, noSpecialKeysFields, noSpecialKeysList]
  refine ⟨hn, ?_⟩
  exact (c3_no_mutation_outside_special_arrays (fun _ => false)).1
    (Value.vObj [("x", Value.vStr "ab")]) (Value.vObj [("x", Value.vStr "ab")])
    (Value.vObj [("x", Value.vStr "ab")]) hn
    (by simp [convertTypes, convertFields, convertField])

/-- C4 (confirmed): a field whose key is exactly `name` keeps its original
value after normalization, whatever that value is, and the argument is not
mutated at that field; no conversion rule is applied to it. -/
theorem c4_name_field_never_converted (isDate : String → Bool)
    (pre post : List (String × Value)) (v r a : Value)
    (h : convertTypes isDate (.vObj (pre ++ ("name", v) :: post)) = .ok (r, a)) :
    ∃ rs1 rs2 as1 as2, r = .vObj (rs1 ++ ("name", v) :: rs2) ∧
      a = .vObj (as1 ++ ("name", v) :: as2) := by
  obtain ⟨rs1, as1, q, rs2, as2, h1, h2, h3, hr, ha⟩ := convertTypes_obj_at h
  rw [convertField.eq_def] at h2
  simp only [String.reduceEq, reduceIte] at h2
  simp only [Except.ok.injEq] at h2
  exact ⟨rs1, rs2, as1, as2, by rw [hr, ← h2], by rw [ha, ← h2]⟩

/-- C4 witness: a `name` field holding a string that the date predicate
accepts is still left unchanged. -/
theorem c4_witness :
    ∃ rs1 rs2 as1 as2,
      Value.vObj [("name", Value.vStr "2023-01-01T00:00:00.000Z")] =
        .vObj (rs1 ++ ("name", Value.vStr "2023-01-01T00:00:00.000Z") :: rs2) ∧
      Value.vObj [("name", Value.vStr "2023-01-01T00:00:00.000Z")] =
        .vObj (as1 ++ ("name", Value.vStr "2023-01-01T00:00:00.000Z") :: as2) :=
  c4_name_field_never_converted (fun _ => true) [] [] (Value.vStr "2023-01-01T00:00:00.000Z")
    (Value.vObj [("name", Value.vStr "2023-01-01T00:00:00.000Z")])
    (Value.vObj [("name", Value.vStr "2023-01-01T00:00:00.000Z")])
    (by simp [convertTypes, convertFields, convertField])

/-- C2 counterexample: the string `"2023-01-01T00:00:00.000Z"` is in the
ECMAScript date-time interchange format, so `Date.parse` accepts it; a
document whose `_id` holds that string gets a Date, not an ObjectId,
because the date-parse check at src/src/index.js:74 runs before the `_id`
check at line 80. -/
theorem c2_counterexample :
    convertTypes (fun s => s = "2023-01-01T00:00:00.000Z")
      (.vObj [("_id", .vStr "2023-01-01T00:00:00.000Z")]) =
      .ok (.vObj [("_id", .vDate "2023-01-01T00:00:00.000Z")],
           .vObj [("_id", .vStr "2023-01-01T00:00:00.000Z")]) ∧
    isObjectIdVal (Value.vDate "2023-01-01T00:00:00.000Z") = false := by
  constructor
  · simp [convertTypes, convertFields, convertField]
  · rfl

/-- C2 amended: the date-parse rule is applied before the `_id` rule, so a
string `_id` that parses as a calendar date becomes a timestamp; only a
string `_id` that does not parse as a date is converted to the identifier
type. -/
theorem c2_date_rule_precedes_id_rule (isDate : String → Bool)
    (pre post : List (String × Value)) (s : String) (r a : Value)
    (h : convertTypes isDate (.vObj (pre ++ ("_id", .vStr s) :: post)) = .ok (r, a)) :
    ∃ rs1 rs2 as1 as2,
      r = .vObj (rs1 ++ ("_id", if isDate s then Value.vDate s else Value.vObjectId s) :: rs2) ∧
      a = .vObj (as1 ++ ("_id", .vStr s) :: as2) := by
  obtain ⟨rs1, as1, q, rs2, as2, h1, h2, h3, hr, ha⟩ := convertTypes_obj_at h
  rw [convertField] at h2
  simp only [String.reduceEq, reduceIte] at h2
  by_cases hd : isDate s = true
  · simp only [hd, if_true, Except.ok.injEq] at h2
    exact ⟨rs1, rs2, as1, as2, by simp [hd, hr, ← h2], by simp [ha, ← h2]⟩
  · simp only [hd, if_false, Bool.false_eq_true] at h2
    cases hv : isValidObjectIdStr s with
    | true =>
      rw [newObjectId, if_pos hv] at h2
      simp only [Except.ok.injEq] at h2
      refine ⟨rs1, rs2, as1, as2, ?_, by simp [ha, ← h2]⟩
      rw [hr, ← h2]
      simp [hd]
    | false =>
      rw [newObjectId, if_neg (by simp [hv])] at h2
      cases h2

/-- C2 witness: a 24-hex `_id` string rejected by the date predicate is
converted to the identifier type. -/
theorem c2_witness :
    ∃ rs1 rs2 as1 as2,
      Value.vObj [("_id", Value.vObjectId "507f1f77bcf86cd799439011")] =
        .vObj (rs1 ++ ("_id", if (fun _ : String => false) "507f1f77bcf86cd799439011" then
          Value.vDate "507f1f77bcf86cd799439011" else
          Value.vObjectId "507f1f77bcf86cd799439011") :: rs2) ∧
      Value.vObj [("_id", Value.vStr "507f1f77bcf86cd799439011")] =
        .vObj (as1 ++ ("_id", Value.vStr "507f1f77bcf86cd799439011") :: as2) :=
  c2_date_rule_precedes_id_rule (fun _ => false) [] [] "507f1f77bcf86cd799439011"
    (Value.vObj [("_id", Value.vObjectId "507f1f77bcf86cd799439011")])
    (Value.vObj [("_id", Value.vStr "507f1f77bcf86cd799439011")])
    (by have h : isValidObjectIdStr "507f1f77bcf86cd799439011" = true := by decide
        simp [convertTypes, convertFields, convertField, newObjectId, h])

/-- C5 counterexample: a field converted to a timestamp by the first
application of normalize is rebuilt as an empty document by the second
application, not left unchanged: a Date object passes the
`typeof data === 'object'` test but has no own enumerable properties, so
the `for key in data` loop produces an empty object. -/
theorem c5_counterexample :
    convertTypes (fun s => s = "2023-01-01T00:00:00.000Z")
      (.vObj [("createdAt", .vStr "2023-01-01T00:00:00.000Z")]) =
      .ok (.vObj [("createdAt", .vDate "2023-01-01T00:00:00.000Z")],
           .vObj [("createdAt", .vStr "2023-01-01T00:00:00.000Z")]) ∧
    convertTypes (fun s => s = "2023-01-01T00:00:00.000Z")
      (.vObj [("createdAt", .vDate "2023-01-01T00:00:00.000Z")]) =
      .ok (.vObj [("createdAt", .vObj [])],
           .vObj [("createdAt", .vDate "2023-01-01T00:00:00.000Z")]) ∧
    Value.vObj [] ≠ Value.vDate "2023-01-01T00:00:00.000Z" :=
  ⟨by simp [convertTypes, convertFields, convertField],
   by simp [convertTypes, convertFields, convertField],
   by simp⟩

/-- C5 amended: a second application of normalize does not leave
previously-converted fields unchanged in general, and what happens
depends on where the typed value sits: a timestamp or identifier value
stored directly under a generic field key is rebuilt as an empty
document (these platform objects have no own enumerable properties);
typed values inside `payments` or `purchasedProducts` elements survive
unchanged, because the `typeof === 'string'` guards fail on them;
identifier values among generic-array elements survive unchanged; and a
timestamp stored directly under the `payments` or `purchasedProducts`
key makes the second application throw a TypeError. -/
theorem c5_second_pass_on_typed_values (isDate : String → Bool) :
    (∀ k, k ≠ "name" → k ≠ "payments" → k ≠ "purchasedProducts" →
      ∀ pre post s r a,
      convertTypes isDate (.vObj (pre ++ (k, .vDate s) :: post)) = .ok (r, a) →
      ∃ rs1 rs2 as1 as2, r = .vObj (rs1 ++ (k, .vObj []) :: rs2) ∧
        a = .vObj (as1 ++ (k, .vDate s) :: as2)) ∧
    (∀ k, k ≠ "name" → k ≠ "payments" → k ≠ "purchasedProducts" →
      ∀ pre post s r a,
      convertTypes isDate (.vObj (pre ++ (k, .vObjectId s) :: post)) = .ok (r, a) →
      ∃ rs1 rs2 as1 as2, r = .vObj (rs1 ++ (k, .vObj []) :: rs2) ∧
        a = .vObj (as1 ++ (k, .vObjectId s) :: as2)) ∧
    (∀ fs, (∀ s, lookupField fs "_id" ≠ some (.vStr s)) →
      (∀ d, lookupField fs "date" ≠ some (.vStr d)) →
      convertPayment (.vObj fs) = .ok (.vObj fs)) ∧
    (∀ fs, (∀ s, lookupField fs "_id" ≠ some (.vStr s)) →
      (∀ s, lookupField fs "productId" ≠ some (.vStr s)) →
      convertPurchased (.vObj fs) = .ok (.vObj fs)) ∧
    (∀ v, (∀ s, v ≠ .vStr s) → oidMapItem v = v) ∧
    (∀ pre post s,
      ∃ e, convertTypes isDate (.vObj (pre ++ ("payments", .vDate s) :: post)) = .error e) ∧
    (∀ pre post s,
      ∃ e, convertTypes isDate
        (.vObj (pre ++ ("purchasedProducts", .vDate s) :: post)) = .error e) := by
  refine ⟨?_, ?_, ?_, ?_, ?_, ?_, ?_⟩
  · intro k hk1 hk2 hk3 pre post s r a h
    obtain ⟨rs1, as1, q, rs2, as2, h1, h2, h3, hr, ha⟩ := convertTypes_obj_at h
    rw [convertField.eq_def] at h2
    simp only [if_neg hk1, if_neg hk2, if_neg hk3] at h2
    rw [convertTypes] at h2
    simp only [Except.ok.injEq] at h2
    exact ⟨rs1, rs2, as1, as2, by rw [hr, ← h2], by rw [ha, ← h2]⟩
  · intro k hk1 hk2 hk3 pre post s r a h
    obtain ⟨rs1, as1, q, rs2, as2, h1, h2, h3, hr, ha⟩ := convertTypes_obj_at h
    rw [convertField.eq_def] at h2
    simp only [if_neg hk1, if_neg hk2, if_neg hk3] at h2
    rw [convertTypes] at h2
    simp only [Except.ok.injEq] at h2
    exact ⟨rs1, rs2, as1, as2, by rw [hr, ← h2], by rw [ha, ← h2]⟩
  · intro fs hid hdt
    have h1 : convertPaymentId fs = .ok fs := by
      rcases convertPaymentId_cases fs with ⟨h, _⟩ | ⟨s, hs, _, _⟩
      · exact h
      · exact absurd hs (hid s)
    have h2 : convertPaymentDate fs = fs := by
      rcases convertPaymentDate_cases fs with ⟨h, _⟩ | ⟨d, hd, _, _⟩
      · exact h
      · exact absurd hd (hdt d)
    rw [convertPayment]
    simp only [h1, h2]
  · intro fs hid hpid
    have h1 : convertPaymentId fs = .ok fs := by
      rcases convertPaymentId_cases fs with ⟨h, _⟩ | ⟨s, hs, _, _⟩
      · exact h
      · exact absurd hs (hid s)
    have h2 : convertPurchasedPid fs = .ok fs := by
      rw [convertPurchasedPid]
      cases hpk : lookupField fs "productId" with
      | none => rfl
      | some v =>
        cases v with
        | vStr s => exact absurd hpk (hpid s)
        | vNum n => rfl
        | vBool b => rfl
        | vNull => rfl
        | vArr xs => rfl
        | vObj gs => rfl
        | vDate d => rfl
        | vObjectId o => rfl
    rw [convertPurchased]
    simp only [h1, h2]
  · intro v hv
    cases v with
    | vStr s => exact absurd rfl (hv s)
    | vNum n => rfl
    | vBool b => rfl
    | vNull => rfl
    | vArr xs => rfl
    | vObj fs => rfl
    | vDate d => rfl
    | vObjectId o => rfl
  · intro pre post s
    exact convertTypes_obj_at_error
      (show convertField isDate "payments" (.vDate s) = .error .typeError by
        simp [convertField])
  · intro pre post s
    exact convertTypes_obj_at_error
      (show convertField isDate "purchasedProducts" (.vDate s) = .error .typeError by
        simp [convertField])

/-- C5 witness: the direct-field part of the amended claim applied to a
one-field document holding a timestamp value, and the survival part
applied to a payment element whose `date` already holds a timestamp. -/
theorem c5_witness :
    (("createdAt" : String) ≠ "name" ∧
    ∃ rs1 rs2 as1 as2,
      Value.vObj [("createdAt", Value.vObj [])] =
        .vObj (rs1 ++ ("createdAt", Value.vObj []) :: rs2) ∧
      Value.vObj [("createdAt", Value.vDate "2023-01-01T00:00:00.000Z")] =
        .vObj (as1 ++ ("createdAt", Value.vDate "2023-01-01T00:00:00.000Z") :: as2)) ∧
    convertPayment (.vObj [("date", Value.vDate "2023-01-01T00:00:00.000Z")]) =
      .ok (.vObj [("date", Value.vDate "2023-01-01T00:00:00.000Z")]) :=
  ⟨⟨by decide,
    (c5_second_pass_on_typed_values (fun _ => false)).1 "createdAt"
      (by decide) (by decide) (by decide) [] [] "2023-01-01T00:00:00.000Z"
      (Value.vObj [("createdAt", Value.vObj [])])
      (Value.vObj [("createdAt", Value.vDate "2023-01-01T00:00:00.000Z")])
      (by simp [convertTypes, convertFields, convertField])⟩,
   (c5_second_pass_on_typed_values (fun _ => false)).2.2.1
     [("date", Value.vDate "2023-01-01T00:00:00.000Z")]
     (fun s hs => by simp [lookupField] at hs)
     (fun d hd => by simp [lookupField] at hd)⟩

/-- C7 counterexample: normalize applied directly to an array maps
`convertTypes` over the elements (src/src/index.js:60), so a string
element in valid identifier format is left as a string, not converted to
the identifier type as the claim requires of every array value. -/
theorem c7_counterexample :
    convertTypes (fun _ => false) (.vArr [.vStr "507f1f77bcf86cd799439011"]) =
      .ok (.vArr [.vStr "507f1f77bcf86cd799439011"], .vArr [.vStr "507f1f77bcf86cd799439011"]) ∧
    isValidObjectIdStr "507f1f77bcf86cd799439011" = true ∧
    isObjectIdVal (Value.vStr "507f1f77bcf86cd799439011") = false :=
  ⟨by simp [convertTypes, convertList], by decide, rfl⟩

/-- C7 amended: only arrays appearing as the value of a generic object
field (key other than `name`, `payments`, `purchasedProducts`) get the
element-wise identifier rule: same length and order, string elements in
valid identifier format converted, every other element (documents
included) left unchanged with no recursion.  An array normalized directly
instead has normalize mapped over its elements. -/
theorem c7_array_rules_by_position (isDate : String → Bool) :
    (∀ k, k ≠ "name" → k ≠ "payments" → k ≠ "purchasedProducts" →
      ∀ pre post xs r a,
        convertTypes isDate (.vObj (pre ++ (k, .vArr xs) :: post)) = .ok (r, a) →
        ∃ rs1 rs2 as1 as2,
          r = .vObj (rs1 ++ (k, .vArr (xs.map oidMapItem)) :: rs2) ∧
          a = .vObj (as1 ++ (k, .vArr xs) :: as2) ∧
          (xs.map oidMapItem).length = xs.length) ∧
    (∀ s, isValidObjectIdStr s = true → oidMapItem (.vStr s) = .vObjectId s) ∧
    (∀ s, isValidObjectIdStr s = false → oidMapItem (.vStr s) = .vStr s) ∧
    (∀ fs, oidMapItem (.vObj fs) = .vObj fs) ∧
    (∀ xs, convertTypes isDate (.vArr xs) =
      (convertList isDate xs).map
        (fun ps => (.vArr (ps.map Prod.fst), .vArr (ps.map Prod.snd)))) := by
  refine ⟨?_, ?_, ?_, ?_, ?_⟩
  · intro k hk1 hk2 hk3 pre post xs r a h
    obtain ⟨rs1, as1, q, rs2, as2, h1, h2, h3, hr, ha⟩ := convertTypes_obj_at h
    rw [convertField.eq_def] at h2
    simp only [if_neg hk1, if_neg hk2, if_neg hk3, Except.ok.injEq] at h2
    exact ⟨rs1, rs2, as1, as2, by rw [hr, ← h2], by rw [ha, ← h2], by simp⟩
  · intro s hs; simp [oidMapItem, hs]
  · intro s hs; simp [oidMapItem, hs]
  · intro fs; rfl
  · intro xs
    rw [convertTypes]
    cases convertList isDate xs with
    | error e => rfl
    | ok ps => rfl

/-- C7 witness: the field-position part of the amended claim applied to a
document holding a two-element array under a generic key. -/
theorem c7_witness :
    ("ids" : String) ≠ "name" ∧
    ∃ rs1 rs2 as1 as2,
      Value.vObj [("ids", Value.vArr [Value.vObjectId "507f1f77bcf86cd799439011",
        Value.vStr "nope"])] =
        .vObj (rs1 ++ ("ids", Value.vArr
          ([Value.vStr "507f1f77bcf86cd799439011", Value.vStr "nope"].map oidMapItem)) :: rs2) ∧
      Value.vObj [("ids", Value.vArr [Value.vStr "507f1f77bcf86cd799439011",
        Value.vStr "nope"])] =
        .vObj (as1 ++ ("ids", Value.vArr [Value.vStr "507f1f77bcf86cd799439011",
          Value.vStr "nope"]) :: as2) ∧
      ([Value.vStr "507f1f77bcf86cd799439011", Value.vStr "nope"].map oidMapItem).length =
        [Value.vStr "507f1f77bcf86cd799439011", Value.vStr "nope"].length :=
  ⟨by decide,
   (c7_array_rules_by_position (fun _ => false)).1 "ids" (by decide) (by decide) (by decide)
     [] [] [Value.vStr "507f1f77bcf86cd799439011", Value.vStr "nope"]
     (Value.vObj [("ids", Value.vArr [Value.vObjectId "507f1f77bcf86cd799439011",
       Value.vStr "nope"])])
     (Value.vObj [("ids", Value.vArr [Value.vStr "507f1f77bcf86cd799439011",
       Value.vStr "nope"])])
     (by have h : isValidObjectIdStr "507f1f77bcf86cd799439011" = true := by decide
         have h2 : isValidObjectIdStr "nope" = false := by decide
         simp [convertTypes, convertFields, convertField, oidMapItem, h, h2])⟩

/-- C10 (confirmed): when `payments` or `purchasedProducts` maps to a
value that is neither an array nor a string accepted by the date parse,
normalization throws (`value.map` is not a function on such values; on a
date-parseable string the date rule fires first instead, and the checks
before it never match these keys). -/
theorem c10_special_keys_require_arrays (isDate : String → Bool)
    (k : String) (hk : k = "payments" ∨ k = "purchasedProducts")
    (pre post : List (String × Value)) (v : Value)
    (hv : ∀ xs, v ≠ .vArr xs)
    (hs : ∀ s, v = .vStr s → isDate s = false) :
    ∃ e, convertTypes isDate (.vObj (pre ++ (k, v) :: post)) = .error e := by
  have hf : ∃ e, convertField isDate k v = .error e := by
    rcases hk with hk | hk <;> subst hk <;> cases v with
    | vStr s => exact ⟨.typeError, by simp [convertField, hs s rfl]⟩
    | vArr xs => exact absurd rfl (hv xs)
    | vObj fs => exact ⟨.typeError, by simp [convertField]⟩
    | vNum n => exact ⟨.typeError, by simp [convertField]⟩
    | vBool b => exact ⟨.typeError, by simp [convertField]⟩
    | vNull => exact ⟨.typeError, by simp [convertField]⟩
    | vDate s => exact ⟨.typeError, by simp [convertField]⟩
    | vObjectId s => exact ⟨.typeError, by simp [convertField]⟩
  obtain ⟨e, he⟩ := hf
  exact convertTypes_obj_at_error he

/-- C10 witness: a document whose `payments` key holds a number makes
normalization throw. -/
theorem c10_witness :
    (("payments" : String) = "payments" ∨ ("payments" : String) = "purchasedProducts") ∧
    ∃ e, convertTypes (fun _ => false) (.vObj [("payments", .vNum 5)]) = .error e :=
  ⟨Or.inl rfl,
   c10_special_keys_require_arrays (fun _ => false) "payments" (Or.inl rfl) [] []
     (Value.vNum 5) (fun xs => by simp) (fun s h => by cases h)⟩



/-- C6 counterexample: a payments element whose `_id` is present and
string-typed but empty is left unconverted, because the source guards the
conversion with JavaScript truthiness and the empty string is falsy. -/
theorem c6_counterexample :
    convertTypes (fun _ => false) (.vObj [("payments", .vArr [.vObj [("_id", .vStr "")]])]) =
      .ok (.vObj [("payments", .vArr [.vObj [("_id", .vStr "")]])],
           .vObj [("payments", .vArr [.vObj [("_id", .vStr "")]])]) ∧
    isObjectIdVal (Value.vStr "") = false :=
  ⟨by simp [convertTypes, convertFields, convertField, convertPayments, convertPayment,
      convertPaymentId, convertPaymentDate, lookupField], rfl⟩

/-- C6 amended: payments elements have a string `_id` converted to the
identifier type and a string `date` converted to the timestamp type when
present and non-empty (truthy); every other field of each element is
untouched with no recursion into sub-fields; elements lacking those
fields, and non-object elements, pass through unchanged; the array is
mapped element-wise in order. -/
theorem c6_payments_element_conversion (isDate : String → Bool) :
    (∀ pre post xs r a,
      convertTypes isDate (.vObj (pre ++ ("payments", .vArr xs) :: post)) = .ok (r, a) →
      ∃ ms rs1 rs2 as1 as2, convertPayments xs = .ok ms ∧
        r = .vObj (rs1 ++ ("payments", .vArr ms) :: rs2) ∧
        a = .vObj (as1 ++ ("payments", .vArr ms) :: as2)) ∧
    (∀ fs q, convertPayment (.vObj fs) = .ok q →
      ∃ gs, q = .vObj gs ∧
        gs.map Prod.fst = fs.map Prod.fst ∧
        (∀ key, key ≠ "_id" → key ≠ "date" → lookupField gs key = lookupField fs key) ∧
        (∀ s, lookupField fs "_id" = some (.vStr s) → s ≠ "" →
          lookupField gs "_id" = some (.vObjectId s)) ∧
        (∀ d, lookupField fs "date" = some (.vStr d) → d ≠ "" →
          lookupField gs "date" = some (.vDate d)) ∧
        (lookupField fs "_id" = none → lookupField fs "date" = none → gs = fs)) ∧
    (∀ v, (∀ fs, v ≠ .vObj fs) → v ≠ .vNull → convertPayment v = .ok v) ∧
    (∀ x xs, convertPayments (x :: xs) =
      match convertPayment x with
      | .error e => .error e
      | .ok q =>
        match convertPayments xs with
        | .error e => .error e
        | .ok qs => .ok (q :: qs)) := by
  refine ⟨fun pre post xs r a h => convertTypes_payments_at h, ?_, ?_, fun x xs => rfl⟩
  · intro fs q h
    rw [convertPayment] at h
    cases hpid : convertPaymentId fs with
    | error e => rw [hpid] at h; cases h
    | ok fs1 =>
      rw [hpid] at h
      simp only [Except.ok.injEq] at h
      subst h
      have hfs1 : (fs1 = fs ∧ (∀ s, lookupField fs "_id" = some (.vStr s) → s = ""))
          ∨ (∃ s, lookupField fs "_id" = some (.vStr s) ∧ s ≠ "" ∧
              fs1 = setField fs "_id" (.vObjectId s)) := by
        rcases convertPaymentId_cases fs with ⟨h1, he⟩ | ⟨s, hid, hs, h1⟩
        · left
          have h2 := hpid.symm.trans h1
          simp only [Except.ok.injEq] at h2
          exact ⟨h2, he⟩
        · right
          rw [newObjectId] at h1
          cases hv : isValidObjectIdStr s with
          | false => rw [if_neg (by simp [hv])] at h1; rw [h1] at hpid; simp [Except.map] at hpid
          | true =>
            rw [if_pos hv] at h1
            rw [h1] at hpid
            simp only [Except.map, Except.ok.injEq] at hpid
            exact ⟨s, hid, hs, hpid.symm⟩
      have hid_dt : lookupField fs1 "date" = lookupField fs "date" := by
        rcases hfs1 with ⟨h1, _⟩ | ⟨s, hid, hs, h1⟩
        · rw [h1]
        · rw [h1]
          exact lookupField_setField_other fs "_id" "date" _ (by decide)
      refine ⟨convertPaymentDate fs1, rfl, ?_, ?_, ?_, ?_, ?_⟩
      · have hk1 : fs1.map Prod.fst = fs.map Prod.fst := by
          rcases hfs1 with ⟨h1, _⟩ | ⟨s, _, _, h1⟩
          · rw [h1]
          · rw [h1]; exact setField_map_fst fs "_id" _
        rcases convertPaymentDate_cases fs1 with ⟨h2, _⟩ | ⟨d, _, _, h2⟩
        · rw [h2, hk1]
        · rw [h2, setField_map_fst, hk1]
      · intro key hki hkd
        have h3 : lookupField (convertPaymentDate fs1) key = lookupField fs1 key := by
          rcases convertPaymentDate_cases fs1 with ⟨h2, _⟩ | ⟨d, _, _, h2⟩
          · rw [h2]
          · rw [h2]; exact lookupField_setField_other fs1 "date" key _ hkd
        rw [h3]
        rcases hfs1 with ⟨h1, _⟩ | ⟨s, _, _, h1⟩
        · rw [h1]
        · rw [h1]; exact lookupField_setField_other fs "_id" key _ hki
      · intro t ht htne
        have h4 : lookupField (convertPaymentDate fs1) "_id" = lookupField fs1 "_id" := by
          rcases convertPaymentDate_cases fs1 with ⟨h2, _⟩ | ⟨d, _, _, h2⟩
          · rw [h2]
          · rw [h2]; exact lookupField_setField_other fs1 "date" "_id" _ (by decide)
        rw [h4]
        rcases hfs1 with ⟨h1, he⟩ | ⟨s, hid, hs, h1⟩
        · exact absurd (he t ht) htne
        · have hts : t = s := by
            have := hid.symm.trans ht
            simpa using this.symm
          subst hts
          rw [h1]
          exact lookupField_setField_self fs "_id" _ _ hid
      · intro d hd hdne
        have h5 : lookupField fs1 "date" = some (.vStr d) := by rw [hid_dt]; exact hd
        rcases convertPaymentDate_cases fs1 with ⟨h2, he⟩ | ⟨d2, hdt1, hd2, h2⟩
        · exact absurd (he d h5) hdne
        · have hdd : d2 = d := by
            have := hdt1.symm.trans h5
            simpa using this
          subst hdd
          rw [h2]
          exact lookupField_setField_self fs1 "date" _ _ hdt1
      · intro hidn hdtn
        have h1 : fs1 = fs := by
          rcases hfs1 with ⟨h1, _⟩ | ⟨s, hid, _, _⟩
          · exact h1
          · rw [hidn] at hid; cases hid
        rcases convertPaymentDate_cases fs1 with ⟨h2, _⟩ | ⟨d, hdt1, _, _⟩
        · rw [h2, h1]
        · rw [h1, hdtn] at hdt1; cases hdt1
  · intro v hobj hnull
    cases v with
    | vObj fs => exact absurd rfl (hobj fs)
    | vNull => exact absurd rfl hnull
    | vStr s => rfl
    | vNum n => rfl
    | vBool b => rfl
    | vArr xs => rfl
    | vDate d => rfl
    | vObjectId o => rfl

/-- C6 witness: the per-element part of the amended claim applied to a
payment with a valid 24-hex string `_id`. -/
theorem c6_witness :
    convertPayment (.vObj [("_id", Value.vStr "507f1f77bcf86cd799439011")]) =
      .ok (.vObj [("_id", Value.vObjectId "507f1f77bcf86cd799439011")]) ∧
    ∃ gs, (Value.vObj [("_id", Value.vObjectId "507f1f77bcf86cd799439011")]) = .vObj gs ∧
      gs.map Prod.fst = [("_id", Value.vStr "507f1f77bcf86cd799439011")].map Prod.fst ∧
      (∀ key, key ≠ "_id" → key ≠ "date" →
        lookupField gs key = lookupField [("_id", Value.vStr "507f1f77bcf86cd799439011")] key) ∧
      (∀ s, lookupField [("_id", Value.vStr "507f1f77bcf86cd799439011")] "_id" =
          some (.vStr s) → s ≠ "" → lookupField gs "_id" = some (.vObjectId s)) ∧
      (∀ d, lookupField [("_id", Value.vStr "507f1f77bcf86cd799439011")] "date" =
          some (.vStr d) → d ≠ "" → lookupField gs "date" = some (.vDate d)) ∧
      (lookupField [("_id", Value.vStr "507f1f77bcf86cd799439011")] "_id" = none →
        lookupField [("_id", Value.vStr "507f1f77bcf86cd799439011")] "date" = none →
        gs = [("_id", Value.vStr "507f1f77bcf86cd799439011")]) := by
  have hcv : convertPayment (.vObj [("_id", Value.vStr "507f1f77bcf86cd799439011")]) =
      .ok (.vObj [("_id", Value.vObjectId "507f1f77bcf86cd799439011")]) := by
    have h : isValidObjectIdStr "507f1f77bcf86cd799439011" = true := by decide
    simp [convertPayment, convertPaymentId, convertPaymentDate, lookupField, setField,
      newObjectId, h]
  exact ⟨hcv, (c6_payments_element_conversion (fun _ => false)).2.1
    [("_id", Value.vStr "507f1f77bcf86cd799439011")]
    (.vObj [("_id", Value.vObjectId "507f1f77bcf86cd799439011")]) hcv⟩




/-- C8 counterexample: a `purchasedProducts` element with an invalid
string `productId` makes normalization throw, because the code converts
`productId` with `new ObjectId` unconditionally (src/src/index.js:103-110)
instead of checking the identifier-format validator first as the claim
states. -/
theorem c8_counterexample :
    convertTypes (fun _ => false)
      (.vObj [("purchasedProducts", .vArr [.vObj [("productId", .vStr "notavalidobjectid")]])]) =
      .error (.invalidObjectId "notavalidobjectid") ∧
    isValidObjectIdStr "notavalidobjectid" = false := by
  have hv : isValidObjectIdStr "notavalidobjectid" = false := by decide
  constructor
  · simp [convertTypes, convertFields, convertField, convertPurchasedList, convertPurchased,
      convertPaymentId, convertPurchasedPid, lookupField, newObjectId, hv]
  · exact hv

/-- C8 amended: identifier conversion is asymmetric, but along a different
line than claimed: string `_id` fields (top-level, payments elements,
purchasedProducts elements) and string `productId` fields are all
converted unconditionally, so an invalid format raises a distinguishable
error; only string elements of generic arrays are checked against the
identifier-format validator, invalid ones passing through unchanged. -/
theorem c8_unconditional_id_conversion (isDate : String → Bool) :
    (∀ s, isDate s = false → isValidObjectIdStr s = false →
      convertTypes isDate (.vObj [("_id", .vStr s)]) = .error (.invalidObjectId s)) ∧
    (∀ s, s ≠ "" → isValidObjectIdStr s = false →
      convertTypes isDate (.vObj [("purchasedProducts",
        .vArr [.vObj [("productId", .vStr s)]])]) = .error (.invalidObjectId s)) ∧
    (∀ s, s ≠ "" → isValidObjectIdStr s = false →
      convertTypes isDate (.vObj [("payments",
        .vArr [.vObj [("_id", .vStr s)]])]) = .error (.invalidObjectId s)) ∧
    (∀ s, isValidObjectIdStr s = false → oidMapItem (.vStr s) = .vStr s) ∧
    (∀ s, isValidObjectIdStr s = true → oidMapItem (.vStr s) = .vObjectId s) := by
  refine ⟨?_, ?_, ?_, ?_, ?_⟩
  · intro s hd hv
    simp [convertTypes, convertFields, convertField, newObjectId, hd, hv]
  · intro s hs hv
    simp [convertTypes, convertFields, convertField, convertPurchasedList, convertPurchased,
      convertPaymentId, convertPurchasedPid, lookupField, newObjectId, hs, hv]
  · intro s hs hv
    simp [convertTypes, convertFields, convertField, convertPayments, convertPayment,
      convertPaymentId, convertPaymentDate, lookupField, newObjectId, hs, hv]
  · intro s hv; simp [oidMapItem, hv]
  · intro s hv; simp [oidMapItem, hv]

/-- C8 witness: the unconditional top-level `_id` conversion applied to an
invalid identifier string. -/
theorem c8_witness :
    ((fun _ : String => false) "xyz" = false ∧ isValidObjectIdStr "xyz" = false) ∧
    convertTypes (fun _ => false) (.vObj [("_id", .vStr "xyz")]) =
      .error (.invalidObjectId "xyz") :=
  ⟨⟨rfl, by decide⟩,
   (c8_unconditional_id_conversion (fun _ => false)).1 "xyz" rfl (by decide)⟩




/-- Every bulk-insert call issued by the collection loop is scoped to a
collection name present in the backup. -/
lemma restoreLoop_calls_names (isDate : String → Bool)
    (ins : String → List Value → Except JsErr Unit) :
    ∀ backup p, p ∈ (restoreLoop isDate ins backup).calls → p.1 ∈ backup.map Prod.fst := by
  intro backup
  induction backup with
  | nil => intro p hp; simp [restoreLoop] at hp
  | cons cd rest ih =>
    obtain ⟨c, docs⟩ := cd
    intro p hp
    rw [restoreLoop] at hp
    by_cases he : docs.length = 0
    · rw [if_pos he] at hp
      simp only [List.map_cons]
      exact List.mem_cons_of_mem _ (ih p hp)
    · rw [if_neg he] at hp
      cases hcv : convertDocs isDate docs with
      | error e => simp only [hcv] at hp; simp at hp
      | ok conv =>
        simp only [hcv] at hp
        cases hins : ins c conv with
        | error e => simp only [hins] at hp; simp at hp; simp [hp]
        | ok u =>
          simp only [hins] at hp
          simp only [List.mem_cons] at hp
          rcases hp with hp | hp
          · simp [hp]
          · simp only [List.map_cons]
            exact List.mem_cons_of_mem _ (ih p hp)

/-- C9 (confirmed): an empty collection gets the skip notice, triggers no
bulk-insert call scoped to it, and the loop proceeds to the remaining
collections unchanged. -/
theorem c9_empty_collection_skipped (isDate : String → Bool)
    (ins : String → List Value → Except JsErr Unit) (c : String)
    (rest : List (String × List Value)) (hc : c ∉ rest.map Prod.fst) :
    (restoreLoop isDate ins ((c, []) :: rest)).events =
      .warnEmpty c :: (restoreLoop isDate ins rest).events ∧
    (restoreLoop isDate ins ((c, []) :: rest)).calls = (restoreLoop isDate ins rest).calls ∧
    (restoreLoop isDate ins ((c, []) :: rest)).aborted = (restoreLoop isDate ins rest).aborted ∧
    (∀ ds, (c, ds) ∉ (restoreLoop isDate ins ((c, []) :: rest)).calls) := by
  have h1 : restoreLoop isDate ins ((c, []) :: rest) =
      ⟨.warnEmpty c :: (restoreLoop isDate ins rest).events,
       (restoreLoop isDate ins rest).calls, (restoreLoop isDate ins rest).aborted⟩ := by
    rw [restoreLoop]
    simp
  refine ⟨by rw [h1], by rw [h1], by rw [h1], ?_⟩
  intro ds hds
  rw [h1] at hds
  exact hc (restoreLoop_calls_names isDate ins rest (c, ds) hds)

/-- C9 witness: a two-collection backup whose first collection is empty. -/
theorem c9_witness :
    (("empty" : String) ∉ ([("b", [Value.vNum 1])].map Prod.fst)) ∧
    (restoreLoop (fun _ => false) (fun _ _ => .ok ())
        (("empty", []) :: [("b", [Value.vNum 1])])).events =
      .warnEmpty "empty" ::
        (restoreLoop (fun _ => false) (fun _ _ => .ok ()) [("b", [Value.vNum 1])]).events ∧
    ("empty", ([] : List Value)) ∉ (restoreLoop (fun _ => false) (fun _ _ => .ok ())
        (("empty", []) :: [("b", [Value.vNum 1])])).calls := by
  have hc : ("empty" : String) ∉ ([("b", [Value.vNum 1])].map Prod.fst) := by simp
  have h := c9_empty_collection_skipped (fun _ => false) (fun _ _ => .ok ()) "empty"
    [("b", [Value.vNum 1])] hc
  exact ⟨hc, h.1, h.2.2.2 []⟩

/-- C1 counterexample: with a backend that rejects the first collection,
the run logs the restoring line for collection `a`, then the single catch
fires and the run closes; collection `b` is never normalized, never
submitted, and gets no success line, contrary to the claim that
subsequent collections are still processed. -/
theorem c1_counterexample :
    restoreBackup (fun _ => false)
      (fun c _ => if c = "a" then .error (.insertError "boom") else .ok ())
      [("a", [.vObj [("x", .vNum 1)]]), ("b", [.vObj [("y", .vNum 2)]])] =
      ⟨[.infoRestoring "a" 1, .errorDuring, .closed],
       [("a", [.vObj [("x", .vNum 1)]])], true⟩ ∧
    (restoreBackup (fun _ => false)
      (fun c _ => if c = "a" then .error (.insertError "boom") else .ok ())
      [("a", [.vObj [("x", .vNum 1)]]), ("b", [.vObj [("y", .vNum 2)]])]).calls.map Prod.fst =
      ["a"] := by
  have h : restoreBackup (fun _ => false)
      (fun c _ => if c = "a" then .error (.insertError "boom") else .ok ())
      [("a", [.vObj [("x", .vNum 1)]]), ("b", [.vObj [("y", .vNum 2)]])] =
      ⟨[.infoRestoring "a" 1, .errorDuring, .closed],
       [("a", [.vObj [("x", .vNum 1)]])], true⟩ := by
    simp [restoreBackup, restoreLoop, convertDocs, convertTypes, convertFields, convertField]
  exact ⟨h, by rw [h]; rfl⟩

/-- C1 amended: when the bulk-insert of a collection fails (or its
conversion throws), the try/catch wrapping the whole loop
(src/src/index.js:138-175) aborts the run: the result is the same as if
the failing collection were the last one, the loop is marked aborted, and
`restoreBackup` appends exactly one error line and the close line. -/
theorem c1_failure_aborts_rest (isDate : String → Bool)
    (ins : String → List Value → Except JsErr Unit) (c : String)
    (docs : List Value) (rest : List (String × List Value))
    (hne : docs ≠ [])
    (hfail : ∀ conv, convertDocs isDate docs = .ok conv → ∃ e, ins c conv = .error e) :
    restoreLoop isDate ins ((c, docs) :: rest) = restoreLoop isDate ins [(c, docs)] ∧
    (restoreLoop isDate ins ((c, docs) :: rest)).aborted = true ∧
    (restoreBackup isDate ins ((c, docs) :: rest)).events =
      (restoreLoop isDate ins ((c, docs) :: rest)).events ++ [.errorDuring, .closed] := by
  have hlen : ¬ docs.length = 0 := by simpa using hne
  cases hcv : convertDocs isDate docs with
  | error e =>
    have h1 : ∀ rest2, restoreLoop isDate ins ((c, docs) :: rest2) =
        ⟨[.infoRestoring c docs.length], [], true⟩ := by
      intro rest2
      rw [restoreLoop, if_neg hlen]
      simp only [hcv]
    exact ⟨(h1 rest).trans (h1 []).symm, by rw [h1],
      by simp [restoreBackup, h1]⟩
  | ok conv =>
    obtain ⟨e, he⟩ := hfail conv hcv
    have h1 : ∀ rest2, restoreLoop isDate ins ((c, docs) :: rest2) =
        ⟨[.infoRestoring c docs.length], [(c, conv)], true⟩ := by
      intro rest2
      rw [restoreLoop, if_neg hlen]
      simp only [hcv, he]
    exact ⟨(h1 rest).trans (h1 []).symm, by rw [h1],
      by simp [restoreBackup, h1]⟩

/-- C1 witness: the amended claim applied to a backup of two one-document
collections with a backend that rejects every insert. -/
theorem c1_witness :
    ([Value.vNum 7] ≠ ([] : List Value)) ∧
    restoreLoop (fun _ => false) (fun _ _ => .error (.insertError "down"))
        (("a", [Value.vNum 7]) :: [("b", [Value.vNum 8])]) =
      restoreLoop (fun _ => false) (fun _ _ => .error (.insertError "down"))
        [("a", [Value.vNum 7])] ∧
    (restoreLoop (fun _ => false) (fun _ _ => .error (.insertError "down"))
        (("a", [Value.vNum 7]) :: [("b", [Value.vNum 8])])).aborted = true := by
  have h := c1_failure_aborts_rest (fun _ => false) (fun _ _ => .error (.insertError "down"))
    "a" [Value.vNum 7] [("b", [Value.vNum 8])] (by simp)
    (fun conv _ => ⟨.insertError "down", rfl⟩)
  exact ⟨by simp, h.1, h.2.1⟩


end BackupRestore
